import Mathlib

/-!
Verification of the gosnmp SNMP client library core (files v3_usm.go and
walk.go) against its natural-language specification.

The Go code is shallowly embedded: byte slices and Go strings holding raw
bytes become `List Nat`, Go strings holding text (OIDs, user names, error
messages) become `String`, machine integers become `Nat` with explicit
reduction modulo two to the word width where overflow matters, and fallible
functions return `Except String`.  Cryptographic digest functions are kept
abstract: every definition that hashes is parameterised by a digest map
`dg : CryptoHash → List Nat → List Nat` standing for the underlying hash,
applied to the full byte stream written into it, which is how the streaming
`hash.Hash` interface of the Go standard library is used by this code.
-/

/-- Big-endian 4-byte encoding of a 32-bit number, as binary.BigEndian.PutUint32. -/
def putUint32BE (n : Nat) : List Nat :=
  [n / 2 ^ 24 % 256, n / 2 ^ 16 % 256, n / 2 ^ 8 % 256, n % 256]

/-- Big-endian 8-byte encoding of a 64-bit number, as binary.BigEndian.PutUint64. -/
def putUint64BE (n : Nat) : List Nat :=
  [n / 2 ^ 56 % 256, n / 2 ^ 48 % 256, n / 2 ^ 40 % 256, n / 2 ^ 32 % 256,
   n / 2 ^ 24 % 256, n / 2 ^ 16 % 256, n / 2 ^ 8 % 256, n % 256]

/-- Embedding of strings.HasPrefix from the Go standard library: `hasPre s pre`
is true when `pre` is a prefix of `s`. -/
def hasPre (s pre : String) : Bool :=
  List.isPrefixOf pre.toList s.toList

/-- SnmpV3AuthProtocol from v3_usm.go (constants NoAuth=1 .. SHA512=7). -/
inductive SnmpV3AuthProtocol
  | NoAuth
  | MD5
  | SHA
  | SHA224
  | SHA256
  | SHA384
  | SHA512
deriving DecidableEq, Repr

/-- The numeric value of each SnmpV3AuthProtocol constant in v3_usm.go. -/
def SnmpV3AuthProtocol.val : SnmpV3AuthProtocol → Nat
  | .NoAuth => 1
  | .MD5 => 2
  | .SHA => 3
  | .SHA224 => 4
  | .SHA256 => 5
  | .SHA384 => 6
  | .SHA512 => 7

/-- The crypto.Hash identifiers reachable from HashType in v3_usm.go. -/
inductive CryptoHash
  | MD5
  | SHA1
  | SHA224
  | SHA256
  | SHA384
  | SHA512
deriving DecidableEq, Repr

/-- HashType from v3_usm.go: maps an auth protocol to its crypto.Hash, with
crypto.MD5 as the default branch. -/
def SnmpV3AuthProtocol.HashType : SnmpV3AuthProtocol → CryptoHash
  | .SHA => .SHA1
  | .SHA224 => .SHA224
  | .SHA256 => .SHA256
  | .SHA384 => .SHA384
  | .SHA512 => .SHA512
  | _ => .MD5

/-- SnmpV3PrivProtocol from v3_usm.go (constants NoPriv=1 .. AES256C=7). -/
inductive SnmpV3PrivProtocol
  | NoPriv
  | DES
  | AES
  | AES192
  | AES256
  | AES192C
  | AES256C
deriving DecidableEq, Repr

/-- The macVarbinds table from v3_usm.go, indexed by the auth protocol: an
OctetString tag byte (0x04), the digest length, and that many zero bytes. -/
def macVarbinds : SnmpV3AuthProtocol → List Nat
  | .NoAuth => [4, 0]
  | .MD5 => [4, 12] ++ List.replicate 12 0
  | .SHA => [4, 12] ++ List.replicate 12 0
  | .SHA224 => [4, 16] ++ List.replicate 16 0
  | .SHA256 => [4, 24] ++ List.replicate 24 0
  | .SHA384 => [4, 32] ++ List.replicate 32 0
  | .SHA512 => [4, 48] ++ List.replicate 48 0

/-- The process-wide password-to-key cache state of v3_usm.go: the map
passwordKeyHashCache (`none` models a nil Go map) and the flag
passwordCacheDisable.  The map is embedded as an association list where the
most recent insertion is looked up first. -/
structure PwCache where
  passwordKeyHashCache : Option (List (List Nat × List Nat))
  passwordCacheDisable : Bool
deriving DecidableEq, Repr

/-- Lookup in the password cache; a nil map yields no entry, as in Go. -/
def cacheLookup (c : Option (List (List Nat × List Nat))) (k : List Nat) :
    Option (List Nat) :=
  match c with
  | none => none
  | some l => (l.find? (fun e => e.1 == k)).map (·.2)

/-- Insertion into the password cache.  Go would panic when storing into a nil
map; that state is unreachable because the cache is nil only while disabled,
and insertion is modelled as a no-op there. -/
def cacheStore (c : Option (List (List Nat × List Nat))) (k v : List Nat) :
    Option (List (List Nat × List Nat)) :=
  match c with
  | none => none
  | some l => some ((k, v) :: l)

/-- PasswordCaching from v3_usm.go: disabling clears the map, re-enabling
after a disable creates a fresh empty map. -/
def PasswordCaching (enable : Bool) (st : PwCache) : PwCache :=
  let oldCacheEnable := !st.passwordCacheDisable
  let c :=
    if !enable then none
    else if !oldCacheEnable && enable then some []
    else st.passwordKeyHashCache
  { passwordKeyHashCache := c, passwordCacheDisable := !enable }

/-- One 64-byte chunk written by hashPassword in v3_usm.go, starting at the
running password index `pi`: byte `e` of the chunk is password[(pi+e) mod len]. -/
def hashPasswordChunk (password : List Nat) (pi : Nat) : List Nat :=
  (List.range 64).map (fun e => password.getD ((pi + e) % password.length) 0)

/-- The byte stream written into the hash by hashPassword in v3_usm.go:
`m` chunks of 64 bytes each, with the password index starting at `pi`.
The source runs the outer loop for i = 0, 64, ..., < 1048576, which is
16384 chunks. -/
def hashPasswordLoop (password : List Nat) : Nat → Nat → List Nat
  | 0, _ => []
  | m + 1, pi => hashPasswordChunk password pi ++ hashPasswordLoop password m (pi + 64)

/-- hashPassword from v3_usm.go: rejects an empty password, otherwise hashes
the 1048576-byte cyclic expansion of the password. -/
def hashPassword (dg : CryptoHash → List Nat → List Nat) (h : CryptoHash)
    (password : List Nat) : Except String (List Nat) :=
  if password.length = 0 then .error "hashPassword: password is empty"
  else .ok (dg h (hashPasswordLoop password 16384 0))

/-- cachedPasswordToKey from v3_usm.go: consult the cache unless caching is
disabled, otherwise run hashPassword and store the result when caching is
enabled.  The disable flag is read once at entry, as in the source. -/
def cachedPasswordToKey (dg : CryptoHash → List Nat → List Nat) (h : CryptoHash)
    (ck : List Nat) (password : List Nat) (st : PwCache) :
    Except String (List Nat) × PwCache :=
  let cacheDisable := st.passwordCacheDisable
  let hit : Option (List Nat) :=
    if cacheDisable then none
    else cacheLookup st.passwordKeyHashCache ck
  match hit with
  | some value => (.ok value, st)
  | none =>
    match hashPassword dg h password with
    | .error e => (.error e, st)
    | .ok hashed =>
      if cacheDisable then (.ok hashed, st)
      else (.ok hashed,
            { st with passwordKeyHashCache := cacheStore st.passwordKeyHashCache ck hashed })

/-- hMAC from v3_usm.go: the localized key H(Ku, engineID, Ku).  When the
cached password-to-key step fails the source returns an empty slice and a nil
error, so the failure is swallowed; this embedding keeps that behaviour. -/
def hMAC (dg : CryptoHash → List Nat → List Nat) (h : CryptoHash)
    (ck : List Nat) (password : List Nat) (engineID : List Nat) (st : PwCache) :
    Except String (List Nat) × PwCache :=
  match cachedPasswordToKey dg h ck password st with
  | (.error _, st2) => (.ok [], st2)
  | (.ok hashed, st2) => (.ok (dg h (hashed ++ engineID ++ hashed)), st2)

/-- The cache key bytes built by cacheKey in v3_usm.go when caching is
enabled: make([]byte, 1+len(passphrase)) leaves that many zero bytes, then
the byte h+protocol and the passphrase are appended. -/
def cacheKeyBytes (authProtocol : SnmpV3AuthProtocol) (passphrase : List Nat) :
    List Nat :=
  List.replicate (1 + passphrase.length) 0 ++
    [(104 + authProtocol.val) % 256] ++ passphrase

/-- cacheKey from v3_usm.go: empty when caching is disabled. -/
def cacheKey (st : PwCache) (authProtocol : SnmpV3AuthProtocol)
    (passphrase : List Nat) : List Nat :=
  if st.passwordCacheDisable then []
  else cacheKeyBytes authProtocol passphrase

/-- genlocalkey from v3_usm.go: the localized key for the given auth protocol,
passphrase and engine id. -/
def genlocalkey (dg : CryptoHash → List Nat → List Nat)
    (authProtocol : SnmpV3AuthProtocol) (passphrase : List Nat)
    (engineID : List Nat) (st : PwCache) : Except String (List Nat) × PwCache :=
  hMAC dg authProtocol.HashType (cacheKey st authProtocol passphrase)
    passphrase engineID st

/-- extendKeyReeder from v3_usm.go: the localized key followed by a second
full localization that uses the first localized key as the passphrase. -/
def extendKeyReeder (dg : CryptoHash → List Nat → List Nat)
    (authProtocol : SnmpV3AuthProtocol) (password : List Nat)
    (engineID : List Nat) (st : PwCache) : Except String (List Nat) × PwCache :=
  match hMAC dg authProtocol.HashType (cacheKey st authProtocol password)
      password engineID st with
  | (.error e, st2) => (.error e, st2)
  | (.ok key, st2) =>
    match hMAC dg authProtocol.HashType (cacheKey st2 authProtocol key)
        key engineID st2 with
    | (.error e, st3) => (.error e, st3)
    | (.ok newkey, st3) => (.ok (key ++ newkey), st3)

/-- extendKeyBlumenthal from v3_usm.go: the localized key followed by its own
hash. -/
def extendKeyBlumenthal (dg : CryptoHash → List Nat → List Nat)
    (authProtocol : SnmpV3AuthProtocol) (password : List Nat)
    (engineID : List Nat) (st : PwCache) : Except String (List Nat) × PwCache :=
  match hMAC dg authProtocol.HashType (cacheKey st authProtocol password)
      password engineID st with
  | (.error e, st2) => (.error e, st2)
  | (.ok key, st2) => (.ok (key ++ dg authProtocol.HashType key), st2)

/-- genlocalPrivKey from v3_usm.go: select the key extension per privacy
protocol, require the extended key to reach the cipher key length, truncate.
The Go error message interpolates the protocol and lengths; the formatted
values are elided here. -/
def genlocalPrivKey (dg : CryptoHash → List Nat → List Nat)
    (privProtocol : SnmpV3PrivProtocol) (authProtocol : SnmpV3AuthProtocol)
    (password : List Nat) (engineID : List Nat) (st : PwCache) :
    Except String (List Nat) × PwCache :=
  let keylen : Nat :=
    match privProtocol with
    | .AES | .DES => 16
    | .AES192 | .AES192C => 24
    | .AES256 | .AES256C => 32
    | .NoPriv => 0
  let r :=
    match privProtocol with
    | .AES | .AES192C | .AES256C => extendKeyReeder dg authProtocol password engineID st
    | .AES192 | .AES256 => extendKeyBlumenthal dg authProtocol password engineID st
    | _ => genlocalkey dg authProtocol password engineID st
  match r with
  | (.error e, st2) => (.error e, st2)
  | (.ok localPrivKey, st2) =>
    if localPrivKey.length < keylen then
      (.error "genlocalPrivKey: extended key shorter than cipher key length", st2)
    else (.ok (localPrivKey.take keylen), st2)

/-- The cyclic 1048576-byte expansion of a password described by the spec:
byte k is password[k mod len]. -/
def cyclicExpansion (password : List Nat) : List Nat :=
  (List.range 1048576).map (fun k => password.getD (k % password.length) 0)

/-- Ku of RFC 3414: the digest of the cyclic expansion of the password. -/
def pwKu (dg : CryptoHash → List Nat → List Nat) (h : CryptoHash)
    (password : List Nat) : List Nat :=
  dg h (hashPasswordLoop password 16384 0)

/-- KuL of RFC 3414: H(Ku, engineID, Ku). -/
def pwKuL (dg : CryptoHash → List Nat → List Nat) (h : CryptoHash)
    (password : List Nat) (engineID : List Nat) : List Nat :=
  dg h (pwKu dg h password ++ engineID ++ pwKu dg h password)

/-- The cache state with caching disabled: nil map, disable flag set. -/
def disabledCache : PwCache :=
  { passwordKeyHashCache := none, passwordCacheDisable := true }

/-- A cache state is consistent when every entry stored under an enabled-mode
cache key holds exactly the password-to-key hash of the corresponding
passphrase, and no entry exists for an empty passphrase (hashPassword fails
there, so a run never stores one). -/
def ConsistentCache (dg : CryptoHash → List Nat → List Nat) (st : PwCache) : Prop :=
  ∀ (a : SnmpV3AuthProtocol) (p v : List Nat),
    cacheLookup st.passwordKeyHashCache (cacheKeyBytes a p) = some v →
    p ≠ [] ∧ v = pwKu dg a.HashType p

/-- Asn1BER variable binding types used by the walk engine and the USM code.
The tag values NoSuchObject 0x80, NoSuchInstance 0x81 and EndOfMibView 0x82
live in the BER codec file of the repository; only their identity matters
here. -/
inductive Asn1BER
  | Integer
  | OctetString
  | Null
  | ObjectIdentifier
  | Counter32
  | NoSuchObject
  | NoSuchInstance
  | EndOfMibView
deriving DecidableEq, Repr

/-- SnmpPDU: one variable binding, a name and its type.  The value payload is
irrelevant to every property proved here and is omitted. -/
structure SnmpPDU where
  Name : String
  Typ : Asn1BER
deriving DecidableEq, Repr

/-- SNMPError: the response error-status codes 0 through 18. -/
inductive SNMPError
  | NoError
  | TooBig
  | NoSuchName
  | BadValue
  | ReadOnly
  | GenErr
  | NoAccess
  | WrongType
  | WrongLength
  | WrongEncoding
  | WrongValue
  | NoCreation
  | InconsistentValue
  | ResourceUnavailable
  | CommitFailed
  | UndoFailed
  | AuthorizationError
  | NotWritable
  | InconsistentName
deriving DecidableEq, Repr

/-- PDUType: the request types the walk engine dispatches on, plus the other
tags listed by the spec, which fall into the unsupported default branch. -/
inductive PDUType
  | GetRequest
  | GetNextRequest
  | GetResponse
  | SetRequest
  | Trap
  | GetBulkRequest
  | InformRequest
  | SNMPv2Trap
  | Report
deriving DecidableEq, Repr

/-- UsmSecurityParameters from v3_usm.go, with the mutex and logger dropped
and the passphrases kept as raw byte lists. -/
structure UsmSecurityParameters where
  localAESSalt : Nat
  localDESSalt : Nat
  AuthoritativeEngineID : List Nat
  AuthoritativeEngineBoots : Nat
  AuthoritativeEngineTime : Nat
  UserName : String
  AuthenticationParameters : List Nat
  PrivacyParameters : List Nat
  AuthenticationProtocol : SnmpV3AuthProtocol
  PrivacyProtocol : SnmpV3PrivProtocol
  AuthenticationPassphrase : List Nat
  PrivacyPassphrase : List Nat
  SecretKey : List Nat
  PrivacyKey : List Nat
deriving DecidableEq, Repr

/-- The value produced by usmAllocateNewSalt: a uint64 for the AES family or
a uint32 for DES, matching the dynamic type inside the Go interface value. -/
inductive SaltValue
  | aes (n : Nat)
  | des (n : Nat)
deriving DecidableEq, Repr

/-- usmAllocateNewSalt from v3_usm.go: atomically add one to the AES salt
(64-bit) or to the DES salt (32-bit) and return the new value. -/
def usmAllocateNewSalt (sp : UsmSecurityParameters) :
    SaltValue × UsmSecurityParameters :=
  match sp.PrivacyProtocol with
  | .AES | .AES192 | .AES256 | .AES192C | .AES256C =>
    let s := (sp.localAESSalt + 1) % 2 ^ 64
    (.aes s, { sp with localAESSalt := s })
  | _ =>
    let s := (sp.localDESSalt + 1) % 2 ^ 32
    (.des s, { sp with localDESSalt := s })

/-- usmSetSalt from v3_usm.go: install the salt as PrivacyParameters, eight
big-endian counter bytes for the AES family, or four big-endian engineBoots
bytes followed by four big-endian counter bytes for DES. -/
def usmSetSalt (sp : UsmSecurityParameters) (newSalt : SaltValue) :
    Except String UsmSecurityParameters :=
  match sp.PrivacyProtocol with
  | .AES | .AES192 | .AES256 | .AES192C | .AES256C =>
    match newSalt with
    | .aes v => .ok { sp with PrivacyParameters := putUint64BE v }
    | .des _ =>
      .error "salt provided to usmSetSalt is not the correct type for the AES privacy protocol"
  | _ =>
    match newSalt with
    | .des v =>
      .ok { sp with PrivacyParameters :=
              putUint32BE sp.AuthoritativeEngineBoots ++ putUint32BE v }
    | .aes _ =>
      .error "salt provided to usmSetSalt is not the correct type for the DES privacy protocol"

/-- Modelled from the spec: the SnmpV3MsgFlags security-level constants used
by v3_usm.go are declared in a repository file that is not under src; per
the spec, bit 0 of msgFlags is authenticated and bit 1 is encrypted, giving
NoAuthNoPriv = 0, AuthNoPriv = 1, AuthPriv = 3. -/
def NoAuthNoPriv : Nat := 0

/-- Modelled from the spec: the authenticated-only security level flag. -/
def AuthNoPriv : Nat := 1

/-- Modelled from the spec: the authenticated-and-encrypted security level
flag, both low bits set. -/
def AuthPriv : Nat := 3

/-- SnmpPacket, restricted to the fields read by walk.go and by InitPacket:
the response error-status, the variable bindings, the message flags and the
security parameters.  castUsmSecParams always succeeds here because the only
embedded security model is USM. -/
structure SnmpPacket where
  Error : SNMPError
  Variables : List SnmpPDU
  MsgFlags : Nat
  SecurityParameters : UsmSecurityParameters
deriving DecidableEq, Repr

/-- InitPacket from v3_usm.go: allocate a new salt from the session
parameters on every packet, and install it into the security parameters of
the packet only when the flags pass the AuthPriv test. -/
def InitPacket (sp : UsmSecurityParameters) (packet : SnmpPacket) :
    Except String (UsmSecurityParameters × SnmpPacket) :=
  let alloc := usmAllocateNewSalt sp
  if Nat.land packet.MsgFlags AuthPriv > AuthNoPriv then
    match usmSetSalt packet.SecurityParameters alloc.1 with
    | .error e => .error e
    | .ok s2 => .ok (alloc.2, { packet with SecurityParameters := s2 })
  else .ok (alloc.2, packet)

/-- Big-endian natural number read from a list of bytes. -/
def beNat (l : List Nat) : Nat :=
  l.foldl (fun acc b => acc * 256 + b) 0

/-- Modelled from the spec: parseLength lives in the BER codec file of the
repository, which is not under src.  Per spec section 4.1, a length is short
form when the byte after the tag is at most 127, otherwise long form with
0x80+n followed by n big-endian length bytes, and n = 0 (indefinite form) is
rejected.  The result is the value length and the cursor just past the tag
and length header, which is the only output decryptPacket consumes. -/
def parseLength (b : List Nat) : Except String (Nat × Nat) :=
  match b with
  | _ :: l :: rest =>
    if l ≤ 127 then .ok (l, 2)
    else
      let n := l - 128
      if n = 0 then .error "invalid length: indefinite form"
      else if rest.length < n then .error "truncated length field"
      else .ok (beNat (rest.take n), 2 + n)
  | _ => .error "truncated packet"

/-- decryptPacket from v3_usm.go.  The block ciphers are abstract: `aesDec`
and `desDec` map key, IV and ciphertext to the plaintext stream.  The DES
branch insists the ciphertext length is a multiple of the DES block size 8
before touching the buffer; on success the decrypted bytes replace the
octet-string header and ciphertext, truncating the packet. -/
def decryptPacket (aesDec desDec : List Nat → List Nat → List Nat → List Nat)
    (sp : UsmSecurityParameters) (packet : List Nat) (cursor : Nat) :
    Except String (List Nat) :=
  match parseLength (packet.drop cursor) with
  | .error e => .error e
  | .ok pr =>
    let cursorTmp := pr.2 + cursor
    if cursorTmp > packet.length then .error "error decrypting ScopedPDU: truncated packet"
    else
      match sp.PrivacyProtocol with
      | .AES | .AES192 | .AES256 | .AES192C | .AES256C =>
        let iv := putUint32BE sp.AuthoritativeEngineBoots ++
          putUint32BE sp.AuthoritativeEngineTime ++
          ((sp.PrivacyParameters ++ List.replicate 8 0).take 8)
        let plaintext := aesDec sp.PrivacyKey iv (packet.drop cursorTmp)
        .ok (packet.take cursor ++ plaintext)
      | .DES =>
        if (packet.length - cursorTmp) % 8 ≠ 0 then
          .error "error decrypting ScopedPDU: not multiple of des block size"
        else
          let preiv := sp.PrivacyKey.drop 8
          let iv := (List.range 8).map
            (fun i => Nat.xor (preiv.getD i 0) (sp.PrivacyParameters.getD i 0))
          let plaintext := desDec (sp.PrivacyKey.take 8) iv (packet.drop cursorTmp)
          .ok (packet.take cursor ++ plaintext)
      | .NoPriv => .ok packet

/-- digestRFC3414 from v3_usm.go: the manual HMAC of RFC 3414, an extended
64-byte key xored with ipad and opad, two hash passes, truncated to 12
bytes.  Called only with MD5 or SHA; the catch-all branch mirrors HashType
and is unreachable from calcPacketDigest. -/
def digestRFC3414 (dg : CryptoHash → List Nat → List Nat)
    (h : SnmpV3AuthProtocol) (packet authKey : List Nat) : List Nat :=
  let hs : CryptoHash := match h with | .SHA => .SHA1 | _ => .MD5
  let extkey := (authKey ++ List.replicate 64 0).take 64
  let k1 := extkey.map (fun b => Nat.xor b 0x36)
  let k2 := extkey.map (fun b => Nat.xor b 0x5c)
  let d1 := dg hs (k1 ++ packet)
  (dg hs (k2 ++ d1)).take 12

/-- The HMAC block size of each hash, as used by crypto/hmac. -/
def hmacBlockSize : CryptoHash → Nat
  | .SHA384 | .SHA512 => 128
  | _ => 64

/-- The standard HMAC construction of crypto/hmac over an abstract hash:
keys longer than the block size are hashed first, the key is zero-padded to
the block size, and two nested hash passes with ipad and opad follow. -/
def hmacDigest (dg : CryptoHash → List Nat → List Nat) (h : CryptoHash)
    (key msg : List Nat) : List Nat :=
  let bs := hmacBlockSize h
  let k0 := if key.length > bs then dg h key else key
  let kp := (k0 ++ List.replicate bs 0).take bs
  let ipad := kp.map (fun b => Nat.xor b 0x36)
  let opad := kp.map (fun b => Nat.xor b 0x5c)
  dg h (opad ++ dg h (ipad ++ msg))

/-- digestRFC7860 from v3_usm.go: the standard HMAC keyed by the localized
key over the packet bytes. -/
def digestRFC7860 (dg : CryptoHash → List Nat → List Nat)
    (h : SnmpV3AuthProtocol) (packet authKey : List Nat) : List Nat :=
  hmacDigest dg h.HashType authKey packet

/-- The digest value computed by calcPacketDigest in v3_usm.go: RFC 3414 for
MD5 and SHA, RFC 7860 for the SHA-2 family, the nil slice for NoAuth, then
truncation to the MAC length of the protocol, which is two less than the
macVarbinds entry length. -/
def calcPacketDigestVal (dg : CryptoHash → List Nat → List Nat)
    (packetBytes : List Nat) (secParams : UsmSecurityParameters) : List Nat :=
  let digest :=
    match secParams.AuthenticationProtocol with
    | .MD5 | .SHA =>
      digestRFC3414 dg secParams.AuthenticationProtocol packetBytes secParams.SecretKey
    | .SHA224 | .SHA256 | .SHA384 | .SHA512 =>
      digestRFC7860 dg secParams.AuthenticationProtocol packetBytes secParams.SecretKey
    | .NoAuth => []
  digest.take ((macVarbinds secParams.AuthenticationProtocol).length - 2)

/-- calcPacketDigest from v3_usm.go.  The only error sources in the Go code
are hash writes, which cannot fail in this embedding, so the result is
always ok; the Except shape is kept to mirror the signature. -/
def calcPacketDigest (dg : CryptoHash → List Nat → List Nat)
    (packetBytes : List Nat) (secParams : UsmSecurityParameters) :
    Except String (List Nat) :=
  .ok (calcPacketDigestVal dg packetBytes secParams)

/-- subtle.ConstantTimeCompare: 1 when the two byte lists have equal length
and contents, 0 otherwise. -/
def ConstantTimeCompare (x y : List Nat) : Nat :=
  if x.length ≠ y.length then 0
  else if x = y then 1 else 0

/-- isAuthentic from v3_usm.go: reject silently on a user name mismatch,
otherwise compare the recomputed digest with the received authentication
parameters in constant time. -/
def isAuthentic (dg : CryptoHash → List Nat → List Nat)
    (sp : UsmSecurityParameters) (packetBytes : List Nat)
    (packet : SnmpPacket) : Except String Bool :=
  let packetSecParams := packet.SecurityParameters
  if packetSecParams.UserName ≠ sp.UserName then .ok false
  else
    match calcPacketDigest dg packetBytes packetSecParams with
    | .error e => .error e
    | .ok msgDigest =>
      .ok (ConstantTimeCompare msgDigest packetSecParams.AuthenticationParameters = 1)

/-- The transport collaborator seen by the walk engine: given the request
counter value of the round and the request type and start OID, produce the
response packet or a transport error.  Go being stateful across exchanges is
modelled by the round-number argument. -/
def Responder : Type :=
  Nat → PDUType → String → Except String SnmpPacket

/-- The terminal variable binding types of the walk loop in walk.go. -/
def isWalkStopType (t : Asn1BER) : Bool :=
  t == .EndOfMibView || t == .NoSuchObject || t == .NoSuchInstance

/-- The eighteen non-zero error-status codes on which the walk loop in
walk.go breaks out cleanly. -/
def isWalkStopError (e : SNMPError) : Bool :=
  match e with
  | .NoError => false
  | _ => true

/-- Control-flow outcome of the varbind loop inside walk.go, carrying the
visitor state: restart the outer loop as a plain Get, break out of the outer
loop, return an error, or fall through to the next round. -/
inductive WalkCtl (σ : Type)
  | retryAsGet (s : σ)
  | breakLoop (s : σ)
  | ret (e : String) (s : σ)
  | nextRound (s : σ)
deriving DecidableEq, Repr

/-- Result of the walk: clean return, an error return, or fuel exhaustion of
the embedding (the Go loop has no fuel and would still be running). -/
inductive WalkResult (σ : Type)
  | ok (s : σ)
  | err (e : String) (s : σ)
  | outOfFuel (s : σ)
deriving DecidableEq, Repr

/-- The inner varbind loop of walk.go.  `walkFn` is the visitor, threaded
through an explicit state; `i` is the index of the head varbind inside the
response; `requests` is the value of the request counter for this round;
`oid` is the OID the round was requested with. -/
def processVars {σ : Type} (walkFn : σ → SnmpPDU → Except String σ)
    (checkIncreasing : Bool) (rootOid oid : String) (requests : Nat) :
    Nat → List SnmpPDU → σ → WalkCtl σ
  | _, [], s => .nextRound s
  | i, pdu :: rest, s =>
    if isWalkStopType pdu.Typ then .breakLoop s
    else if !hasPre pdu.Name (rootOid ++ ".") then
      if requests = 1 ∧ i = 0 then .retryAsGet s
      else if pdu.Name = rootOid ∧ pdu.Typ ≠ .NoSuchInstance then
        match walkFn s pdu with
        | .error e => .ret e s
        | .ok s2 => .breakLoop s2
      else .breakLoop s
    else if checkIncreasing ∧ pdu.Name = oid then
      .ret ("OID not increasing: " ++ pdu.Name) s
    else
      match walkFn s pdu with
      | .error e => .ret e s
      | .ok s2 => processVars walkFn checkIncreasing rootOid oid requests (i + 1) rest s2

/-- One iteration of the request loop of walk.go: bump the request counter,
perform the exchange, stop cleanly on an empty response or a non-zero error
status, and otherwise process the varbinds.  The left summand is a final
result; the right summand is the continuation state of the loop: the next
request type (downgraded to a plain Get on a first-round out-of-range first
varbind) and the next start OID (the last returned name after a full round,
the same OID on a retry). -/
def walkRound {σ : Type} (resp : Responder) (walkFn : σ → SnmpPDU → Except String σ)
    (checkIncreasing : Bool) (rootOid : String) (getRequestType : PDUType)
    (oid : String) (requests : Nat) (s : σ) :
    Sum (WalkResult σ) (PDUType × String × σ) :=
  let r := requests + 1
  let exchange : Except String SnmpPacket :=
    match getRequestType with
    | .GetBulkRequest => resp r .GetBulkRequest oid
    | .GetNextRequest => resp r .GetNextRequest oid
    | .GetRequest => resp r .GetRequest oid
    | _ => .error "unsupported request type"
  match exchange with
  | .error e => .inl (.err e s)
  | .ok response =>
    if response.Variables.length = 0 then .inl (.ok s)
    else if isWalkStopError response.Error then .inl (.ok s)
    else
      match processVars walkFn checkIncreasing rootOid oid r 0 response.Variables s with
      | .retryAsGet s2 => .inr (.GetRequest, oid, s2)
      | .breakLoop s2 => .inl (.ok s2)
      | .ret e s2 => .inl (.err e s2)
      | .nextRound s2 =>
        .inr (getRequestType,
          (response.Variables.getLast?.map SnmpPDU.Name).getD oid, s2)

/-- The outer request loop of walk.go, with explicit fuel: iterate walkRound
until it produces a final result. -/
def walkLoop {σ : Type} (resp : Responder) (walkFn : σ → SnmpPDU → Except String σ)
    (checkIncreasing : Bool) (rootOid : String) :
    Nat → PDUType → String → Nat → σ → WalkResult σ
  | 0, _, _, _, s => .outOfFuel s
  | fuel + 1, getRequestType, oid, requests, s =>
    match walkRound resp walkFn checkIncreasing rootOid getRequestType oid requests s with
    | .inl res => res
    | .inr (t2, oid2, s2) =>
      walkLoop resp walkFn checkIncreasing rootOid fuel t2 oid2 (requests + 1) s2

/-- Root normalization at the top of walk in walk.go: an empty or bare-dot
root becomes the internet arc, and a missing leading dot is prepended. -/
def normalizeRootOid (rootOid : String) : String :=
  let r := if rootOid = "" ∨ rootOid = "." then ".1.3.6.1" else rootOid
  if !hasPre r "." then "." ++ r else r

/-- The AppOpts driven decision in walk.go: the OID-increasing check is
disabled only when the application options contain the key c and the request
type is GetBulk or GetNext.  The option map is embedded as the list of its
keys; a nil map and a map without the key behave identically. -/
def computeCheckIncreasing (appOpts : List String) (getRequestType : PDUType) : Bool :=
  if appOpts.contains "c" &&
      (getRequestType == .GetBulkRequest || getRequestType == .GetNextRequest) then
    false
  else true

/-- walk from walk.go: normalize the root, fix the increasing-check mode,
then run the request loop starting from the root with the request counter at
zero. -/
def walk {σ : Type} (resp : Responder) (walkFn : σ → SnmpPDU → Except String σ)
    (appOpts : List String) (fuel : Nat) (getRequestType : PDUType)
    (rootOid : String) (s : σ) : WalkResult σ :=
  let root := normalizeRootOid rootOid
  walkLoop resp walkFn (computeCheckIncreasing appOpts getRequestType) root
    fuel getRequestType root 0 s

/-- walkAll from walk.go: run walk with a visitor that appends every
delivered varbind to a list. -/
def walkAll (resp : Responder) (appOpts : List String) (fuel : Nat)
    (getRequestType : PDUType) (rootOid : String) : WalkResult (List SnmpPDU) :=
  walk resp (fun s pdu => .ok (s ++ [pdu])) appOpts fuel getRequestType rootOid []

/-- A zeroed UsmSecurityParameters record for building concrete packets. -/
def usmZero : UsmSecurityParameters :=
  { localAESSalt := 0, localDESSalt := 0, AuthoritativeEngineID := [],
    AuthoritativeEngineBoots := 0, AuthoritativeEngineTime := 0, UserName := "",
    AuthenticationParameters := [], PrivacyParameters := [],
    AuthenticationProtocol := .NoAuth, PrivacyProtocol := .NoPriv,
    AuthenticationPassphrase := [], PrivacyPassphrase := [],
    SecretKey := [], PrivacyKey := [] }

/-- A response packet with the given error status and varbinds. -/
def mkResponse (e : SNMPError) (vs : List SnmpPDU) : SnmpPacket :=
  { Error := e, Variables := vs, MsgFlags := 0, SecurityParameters := usmZero }

/-- Concrete responder for the OID-not-increasing scenario: the second round
repeats the OID of the first round. -/
def respC1 : Responder := fun n _ _ =>
  match n with
  | 1 => .ok (mkResponse .NoError [⟨".1.3.5", .Integer⟩])
  | 2 => .ok (mkResponse .NoError [⟨".1.3.5", .Integer⟩])
  | _ => .ok (mkResponse .NoError [])

/-- Concrete responder for the leaf-OID walk: the first GetNext answers
outside the subtree, the retried Get answers with the root itself. -/
def respC8w : Responder := fun n t _ =>
  match n, t with
  | 1, .GetNextRequest => .ok (mkResponse .NoError [⟨".1.4.2", .Integer⟩])
  | 2, .GetRequest => .ok (mkResponse .NoError [⟨".1.3", .OctetString⟩])
  | _, _ => .error "unexpected exchange"

/-- Concrete responder refuting the literal leaf-delivery claim: the retried
Get answers with the root itself typed EndOfMibView. -/
def respC8ce : Responder := fun n t _ =>
  match n, t with
  | 1, .GetNextRequest => .ok (mkResponse .NoError [⟨".1.4.2", .Integer⟩])
  | 2, .GetRequest => .ok (mkResponse .NoError [⟨".1.3", .EndOfMibView⟩])
  | _, _ => .error "unexpected exchange"

/-- Concrete responder for the clean-termination witnesses. -/
def respC9w : Responder := fun n _ _ =>
  match n with
  | 1 => .ok (mkResponse .NoError [⟨".1.3.5", .Integer⟩])
  | 2 => .ok (mkResponse .GenErr [⟨".1.3.7", .Integer⟩])
  | _ => .ok (mkResponse .NoError [])

/-- Concrete responder refuting the literal clean-termination claim: the
second round repeats an OID and also carries an EndOfMibView varbind. -/
def respC9ce : Responder := fun n _ _ =>
  match n with
  | 1 => .ok (mkResponse .NoError [⟨".1.3.5", .Integer⟩])
  | 2 => .ok (mkResponse .NoError [⟨".1.3.5", .Integer⟩, ⟨".1.3.9", .EndOfMibView⟩])
  | _ => .ok (mkResponse .NoError [])

/-- A concrete digest map for witnesses: every hash returns twenty bytes of
value seven, ignoring its input. -/
def dgK : CryptoHash → List Nat → List Nat := fun _ _ => List.replicate 20 7

/-- The freshly enabled, empty password cache. -/
def emptyCache : PwCache :=
  { passwordKeyHashCache := some [], passwordCacheDisable := false }

/-- Session parameters with the AES privacy protocol and a small salt. -/
def spAES : UsmSecurityParameters :=
  { usmZero with PrivacyProtocol := .AES, localAESSalt := 5 }

/-- Session parameters with the AES privacy protocol and the salt at the
top of the 64-bit range. -/
def spAESmax : UsmSecurityParameters :=
  { usmZero with PrivacyProtocol := .AES, localAESSalt := 2 ^ 64 - 1 }

/-- Session parameters with the DES privacy protocol, boots set. -/
def spDES : UsmSecurityParameters :=
  { usmZero with
    PrivacyProtocol := .DES
    localDESSalt := 3
    AuthoritativeEngineBoots := 7 }

/-- An outgoing v3 packet carrying the given flags and security parameters. -/
def mkV3Packet (flags : Nat) (spp : UsmSecurityParameters) : SnmpPacket :=
  { Error := .NoError, Variables := [], MsgFlags := flags, SecurityParameters := spp }

/-- Session parameters for the DES decryption scenario: a 16-byte privacy
key. -/
def spDES16 : UsmSecurityParameters :=
  { usmZero with PrivacyProtocol := .DES, PrivacyKey := List.range 16 }

/-- A DES scopedPDU whose ciphertext is nine bytes long. -/
def pktDES9 : List Nat := [4, 9] ++ List.replicate 9 1

/-- A DES scopedPDU whose ciphertext is eight bytes long. -/
def pktDES8 : List Nat := [4, 8] ++ List.replicate 8 1

/-- A block cipher for witnesses: decrypts everything to a fixed byte. -/
def cipherK : List Nat → List Nat → List Nat → List Nat := fun _ _ _ => [7]

/-- Inbound security parameters as parsed from an authenticated packet:
user alice, SHA authentication, and a received MAC matching dgK. -/
def usmAlice : UsmSecurityParameters :=
  { usmZero with
    UserName := "alice"
    AuthenticationProtocol := .SHA
    SecretKey := [1, 2]
    AuthenticationParameters := List.replicate 12 7 }

/-- The session parameters matching usmAlice by user name. -/
def spAlice : UsmSecurityParameters := { usmZero with UserName := "alice" }

/-- The session parameters not matching usmAlice by user name. -/
def spBob : UsmSecurityParameters := { usmZero with UserName := "bob" }

theorem hasPre_iff {s pre : String} : hasPre s pre = true ↔ pre.toList <+: s.toList := by
  simp [hasPre, List.isPrefixOf_iff_prefix]

theorem toList_append_str (s t : String) : (s ++ t).toList = s.toList ++ t.toList := by
  simp [String.toList, String.data_append]

theorem ne_of_hasPre_dot {s r : String} (h : hasPre s (r ++ ".") = true) : s ≠ r := by
  intro hEq
  subst hEq
  have hp := hasPre_iff.mp h
  have hlen := hp.length_le
  rw [toList_append_str] at hlen
  simp at hlen

theorem hasPre_self_dot (r : String) : hasPre r (r ++ ".") = false := by
  cases hc : hasPre r (r ++ ".") with
  | false => rfl
  | true => exact absurd rfl (ne_of_hasPre_dot hc)

theorem walkLoop_succ {σ : Type} (resp : Responder)
    (walkFn : σ → SnmpPDU → Except String σ) (ci : Bool) (root : String)
    (fuel : Nat) (t : PDUType) (oid : String) (requests : Nat) (s : σ) :
    walkLoop resp walkFn ci root (fuel + 1) t oid requests s =
      match walkRound resp walkFn ci root t oid requests s with
      | .inl res => res
      | .inr (t2, oid2, s2) => walkLoop resp walkFn ci root fuel t2 oid2 (requests + 1) s2 :=
  rfl

/-- C1: in a walk round with the OID-increasing check enabled, a returned
in-range varbind whose name equals the OID the round was requested with
aborts the walk with the OID-not-increasing error; when the application
options contain the key c and the request type is GetBulk or GetNext the
check is disabled and the repeated varbind is delivered to the visitor
instead. -/
theorem walk_oidNotIncreasing (resp : Responder) (appOpts : List String)
    (t : PDUType) (root : String) (packet1 packet2 packet3 : SnmpPacket)
    (pdu1 pdu2 : SnmpPDU)
    (hroot : normalizeRootOid root = root)
    (htype : t = .GetNextRequest ∨ t = .GetBulkRequest)
    (h1 : resp 1 t root = .ok packet1)
    (he1 : packet1.Error = .NoError) (hv1 : packet1.Variables = [pdu1])
    (hty1 : isWalkStopType pdu1.Typ = false)
    (hin1 : hasPre pdu1.Name (root ++ ".") = true)
    (h2 : resp 2 t pdu1.Name = .ok packet2)
    (he2 : packet2.Error = .NoError) (hv2 : packet2.Variables = [pdu2])
    (hty2 : isWalkStopType pdu2.Typ = false)
    (heq : pdu2.Name = pdu1.Name)
    (h3 : resp 3 t pdu1.Name = .ok packet3)
    (he3 : packet3.Error = .NoError) (hv3 : packet3.Variables = []) (fuel : Nat) :
    (computeCheckIncreasing appOpts t = true →
      walkAll resp appOpts (fuel + 3) t root =
        .err ("OID not increasing: " ++ pdu1.Name) [pdu1]) ∧
    (appOpts.contains "c" = true →
      walkAll resp appOpts (fuel + 3) t root = .ok [pdu1, pdu2]) ∧
    (∀ (σ : Type) (walkFn : σ → SnmpPDU → Except String σ) (s : σ)
      (oid2 : String) (r i : Nat) (pdu : SnmpPDU) (rest : List SnmpPDU),
      isWalkStopType pdu.Typ = false →
      hasPre pdu.Name (root ++ ".") = true →
      pdu.Name = oid2 →
      processVars walkFn true root oid2 r i (pdu :: rest) s =
        .ret ("OID not increasing: " ++ pdu.Name) s) := by
  have hne1 : pdu1.Name ≠ root := ne_of_hasPre_dot hin1
  have hin2 : hasPre pdu2.Name (root ++ ".") = true := heq ▸ hin1
  have hround1 : ∀ ci : Bool,
      walkRound resp (fun s pdu => .ok (s ++ [pdu])) ci root t root 0 ([] : List SnmpPDU) =
        .inr (t, pdu1.Name, [pdu1]) := by
    intro ci
    rcases htype with rfl | rfl <;>
      simp [walkRound, isWalkStopError, h1, he1, hv1, processVars, hty1, hin1, hne1]
  have hround2 : walkRound resp (fun s pdu => .ok (s ++ [pdu])) true root t pdu1.Name 1
      [pdu1] = .inl (.err ("OID not increasing: " ++ pdu1.Name) [pdu1]) := by
    rcases htype with rfl | rfl <;>
      simp [walkRound, isWalkStopError, h2, he2, hv2, processVars, hty2, hin1, hin2, heq]
  have hround2f : walkRound resp (fun s pdu => .ok (s ++ [pdu])) false root t pdu1.Name 1
      [pdu1] = .inr (t, pdu1.Name, [pdu1, pdu2]) := by
    rcases htype with rfl | rfl <;>
      simp [walkRound, isWalkStopError, h2, he2, hv2, processVars, hty2, hin1, hin2, heq]
  have hround3 : ∀ ci : Bool, walkRound resp (fun s pdu => .ok (s ++ [pdu])) ci root t pdu1.Name 2
      [pdu1, pdu2] = .inl (.ok [pdu1, pdu2]) := by
    intro ci
    rcases htype with rfl | rfl <;>
      simp [walkRound, isWalkStopError, h3, he3, hv3]
  refine ⟨?_, ?_, ?_⟩
  · intro hci
    simp only [walkAll, walk, hroot, hci, walkLoop_succ, hround1, hround2]
  · intro hc
    have hmem : ("c" : String) ∈ appOpts := by simpa using hc
    have hci : computeCheckIncreasing appOpts t = false := by
      rcases htype with rfl | rfl <;> simp [computeCheckIncreasing, hmem]
    simp only [walkAll, walk, hroot, hci, walkLoop_succ, hround1, hround2f, hround3]
  · intro σ walkFn s oid2 r i pdu rest hty hin hname
    subst hname
    simp [processVars, hty, hin]

theorem walk_oidNotIncreasing_witness :
    walkAll respC1 [] 3 .GetNextRequest ".1.3" =
      .err ("OID not increasing: " ++ ".1.3.5") [⟨".1.3.5", .Integer⟩] ∧
    walkAll respC1 ["c"] 3 .GetNextRequest ".1.3" =
      .ok [⟨".1.3.5", .Integer⟩, ⟨".1.3.5", .Integer⟩] := by
  constructor
  · exact (walk_oidNotIncreasing respC1 [] .GetNextRequest ".1.3"
      (mkResponse .NoError [⟨".1.3.5", .Integer⟩])
      (mkResponse .NoError [⟨".1.3.5", .Integer⟩])
      (mkResponse .NoError [])
      ⟨".1.3.5", .Integer⟩ ⟨".1.3.5", .Integer⟩
      (by decide) (Or.inl rfl) rfl rfl rfl (by decide) (by decide)
      rfl rfl rfl (by decide) rfl rfl rfl rfl 0).1 (by decide)
  · exact (walk_oidNotIncreasing respC1 ["c"] .GetNextRequest ".1.3"
      (mkResponse .NoError [⟨".1.3.5", .Integer⟩])
      (mkResponse .NoError [⟨".1.3.5", .Integer⟩])
      (mkResponse .NoError [])
      ⟨".1.3.5", .Integer⟩ ⟨".1.3.5", .Integer⟩
      (by decide) (Or.inl rfl) rfl rfl rfl (by decide) (by decide)
      rfl rfl rfl (by decide) rfl rfl rfl rfl 0).2.1 (by decide)

theorem walk_leafFallback_counterexample :
    respC8ce 2 .GetRequest ".1.3" =
      .ok (mkResponse .NoError [⟨".1.3", .EndOfMibView⟩]) ∧
    (Asn1BER.EndOfMibView ≠ Asn1BER.NoSuchInstance) ∧
    walkAll respC8ce [] 4 .GetNextRequest ".1.3" = .ok [] := by
  refine ⟨rfl, by decide, by decide⟩

theorem processVars_leafDeliver (ci : Bool) (root oid : String) (r : Nat)
    (hr : 2 ≤ r) (pduR : SnmpPDU) (rest : List SnmpPDU)
    (htR : isWalkStopType pduR.Typ = false) (hnR : pduR.Name = root) :
    ∀ (pre : List SnmpPDU) (i : Nat) (s : List SnmpPDU),
      (∀ pdu ∈ pre, isWalkStopType pdu.Typ = false ∧
        hasPre pdu.Name (root ++ ".") = true ∧ ¬(ci = true ∧ pdu.Name = oid)) →
      processVars (fun s pdu => .ok (s ++ [pdu])) ci root oid r i (pre ++ pduR :: rest) s =
        .breakLoop (s ++ pre ++ [pduR]) := by
  intro pre
  induction pre with
  | nil =>
    intro i s _
    have hr1 : ¬(r = 1 ∧ i = 0) := by omega
    have hnsi : pduR.Typ ≠ .NoSuchInstance := by
      simp [isWalkStopType] at htR
      exact htR.2
    simp [processVars, htR, hr1, hnR, hnsi, hasPre_self_dot]
  | cons p pre2 ih =>
    intro i s hpre
    have hp := hpre p (by simp)
    have hrest : ∀ pdu ∈ pre2, isWalkStopType pdu.Typ = false ∧
        hasPre pdu.Name (root ++ ".") = true ∧ ¬(ci = true ∧ pdu.Name = oid) :=
      fun pdu hm => hpre pdu (by simp [hm])
    have hih := ih (i + 1) (s ++ [p]) hrest
    simp [processVars, hp.1, hp.2.1, hp.2.2, hih]

/-- C8 (amended): when the first varbind of the first round is out of range,
the walk re-issues the round as a plain Get on the root (the first
conjunct); and whenever a round after the first reaches an out-of-range
varbind named exactly the root whose type is none of EndOfMibView,
NoSuchObject and NoSuchInstance (the original claim only excluded
NoSuchInstance, but the terminal-type check of the loop runs first), exactly
that one varbind is delivered and the walk returns nil (the second
conjunct, covering the retried Get and any later round alike), so a walk
rooted at a leaf scalar returns exactly one varbind. -/
theorem walk_leafFallback (resp : Responder) (appOpts : List String)
    (t : PDUType) (root : String) (packet1 packet2 : SnmpPacket)
    (pdu1 pdu2 : SnmpPDU)
    (hroot : normalizeRootOid root = root)
    (htype : t = .GetNextRequest ∨ t = .GetBulkRequest)
    (h1 : resp 1 t root = .ok packet1)
    (he1 : packet1.Error = .NoError) (hv1 : packet1.Variables = [pdu1])
    (hty1 : isWalkStopType pdu1.Typ = false)
    (hout1 : hasPre pdu1.Name (root ++ ".") = false)
    (h2 : resp 2 .GetRequest root = .ok packet2)
    (he2 : packet2.Error = .NoError) (hv2 : packet2.Variables = [pdu2])
    (hty2 : isWalkStopType pdu2.Typ = false)
    (hn2 : pdu2.Name = root) (fuel : Nat) :
    walkAll resp appOpts (fuel + 2) t root = .ok [pdu2] ∧
    (∀ (resp2 : Responder) (ci : Bool) (fuel2 : Nat) (t2 : PDUType) (oid : String)
      (requests : Nat) (s pre rest : List SnmpPDU) (pduR : SnmpPDU) (packet : SnmpPacket),
      (t2 = .GetRequest ∨ t2 = .GetNextRequest ∨ t2 = .GetBulkRequest) →
      1 ≤ requests →
      resp2 (requests + 1) t2 oid = .ok packet →
      packet.Error = .NoError →
      packet.Variables = pre ++ pduR :: rest →
      isWalkStopType pduR.Typ = false →
      pduR.Name = root →
      (∀ pdu ∈ pre, isWalkStopType pdu.Typ = false ∧
        hasPre pdu.Name (root ++ ".") = true ∧ ¬(ci = true ∧ pdu.Name = oid)) →
      walkLoop resp2 (fun s pdu => .ok (s ++ [pdu])) ci root (fuel2 + 1) t2 oid requests s =
        .ok (s ++ pre ++ [pduR])) := by
  have hnsi : pdu2.Typ ≠ .NoSuchInstance := by
    simp [isWalkStopType] at hty2
    exact hty2.2
  have hout2 : hasPre pdu2.Name (root ++ ".") = false := hn2 ▸ hasPre_self_dot root
  have hround1 : ∀ ci : Bool,
      walkRound resp (fun s pdu => .ok (s ++ [pdu])) ci root t root 0 ([] : List SnmpPDU) =
        .inr (.GetRequest, root, []) := by
    intro ci
    rcases htype with rfl | rfl <;>
      simp [walkRound, isWalkStopError, h1, he1, hv1, processVars, hty1, hout1]
  have hround2 : ∀ ci : Bool,
      walkRound resp (fun s pdu => .ok (s ++ [pdu])) ci root .GetRequest root 1
        ([] : List SnmpPDU) = .inl (.ok [pdu2]) := by
    intro ci
    simp [walkRound, isWalkStopError, h2, he2, hv2, processVars, hty2, hout2, hn2, hnsi,
      hasPre_self_dot]
  constructor
  · simp only [walkAll, walk, hroot, walkLoop_succ, hround1, hround2]
  · intro resp2 ci fuel2 t2 oid requests s pre rest pduR packet ht2 hreq h he hv htR hnR hpre
    have hproc := processVars_leafDeliver ci root oid (requests + 1) (by omega) pduR rest
      htR hnR pre 0 s hpre
    rcases ht2 with rfl | rfl | rfl <;>
      simp [walkLoop_succ, walkRound, isWalkStopError, h, he, hv, hproc]

theorem walk_leafFallback_witness :
    walkAll respC8w [] 2 .GetNextRequest ".1.3" = .ok [⟨".1.3", .OctetString⟩] ∧
    walkLoop respC8w (fun (s : List SnmpPDU) pdu => .ok (s ++ [pdu])) true ".1.3" 1
      .GetRequest ".1.3" 1 [] = .ok [⟨".1.3", .OctetString⟩] := by
  have hw := walk_leafFallback respC8w [] .GetNextRequest ".1.3"
    (mkResponse .NoError [⟨".1.4.2", .Integer⟩])
    (mkResponse .NoError [⟨".1.3", .OctetString⟩])
    ⟨".1.4.2", .Integer⟩ ⟨".1.3", .OctetString⟩
    (by decide) (Or.inl rfl) rfl rfl rfl (by decide) (by decide)
    rfl rfl rfl (by decide) rfl 0
  refine ⟨hw.1, ?_⟩
  exact hw.2 respC8w true 0 .GetRequest ".1.3" 1 [] [] []
    ⟨".1.3", .OctetString⟩ (mkResponse .NoError [⟨".1.3", .OctetString⟩])
    (Or.inl rfl) (by decide) rfl rfl rfl (by decide) rfl
    (by intro pdu hm; simp at hm)

theorem processVars_stop (ci : Bool) (root oid : String) (r : Nat) (pduT : SnmpPDU)
    (rest : List SnmpPDU) (htT : isWalkStopType pduT.Typ = true) :
    ∀ (pre : List SnmpPDU) (i : Nat) (s : List SnmpPDU),
      (∀ pdu ∈ pre, isWalkStopType pdu.Typ = false ∧
        hasPre pdu.Name (root ++ ".") = true ∧ ¬(ci = true ∧ pdu.Name = oid)) →
      processVars (fun s pdu => .ok (s ++ [pdu])) ci root oid r i (pre ++ pduT :: rest) s =
        .breakLoop (s ++ pre) := by
  intro pre
  induction pre with
  | nil => intro i s _; simp [processVars, htT]
  | cons p pre2 ih =>
    intro i s hpre
    have hp := hpre p (by simp)
    have hrest : ∀ pdu ∈ pre2, isWalkStopType pdu.Typ = false ∧
        hasPre pdu.Name (root ++ ".") = true ∧ ¬(ci = true ∧ pdu.Name = oid) :=
      fun pdu hm => hpre pdu (by simp [hm])
    have hih := ih (i + 1) (s ++ [p]) hrest
    simp [processVars, hp.1, hp.2.1, hp.2.2, hih]

/-- C9 (amended): the walk returns nil, not an error, whenever a round gets a
response with no varbinds, whenever the response error-status is one of the
eighteen non-zero codes TooBig through InconsistentName, and whenever a
varbind of type EndOfMibView, NoSuchObject or NoSuchInstance is reached,
meaning every varbind before it in the round is in range, passes the
OID-increasing check and is delivered (the original claim held this
unconditionally, but an earlier varbind in the same round can abort the walk
with the OID-not-increasing error first). -/
theorem walk_cleanTermination (resp : Responder) (ci : Bool) (root : String) :
    (∀ (σ : Type) (walkFn : σ → SnmpPDU → Except String σ) (fuel : Nat)
      (t : PDUType) (oid : String) (requests : Nat) (s : σ) (packet : SnmpPacket),
      (t = .GetRequest ∨ t = .GetNextRequest ∨ t = .GetBulkRequest) →
      resp (requests + 1) t oid = .ok packet →
      packet.Variables = [] →
      walkLoop resp walkFn ci root (fuel + 1) t oid requests s = .ok s) ∧
    (∀ (σ : Type) (walkFn : σ → SnmpPDU → Except String σ) (fuel : Nat)
      (t : PDUType) (oid : String) (requests : Nat) (s : σ) (packet : SnmpPacket),
      (t = .GetRequest ∨ t = .GetNextRequest ∨ t = .GetBulkRequest) →
      resp (requests + 1) t oid = .ok packet →
      isWalkStopError packet.Error = true →
      walkLoop resp walkFn ci root (fuel + 1) t oid requests s = .ok s) ∧
    (∀ (fuel : Nat) (t : PDUType) (oid : String) (requests : Nat)
      (s pre rest : List SnmpPDU) (pduT : SnmpPDU) (packet : SnmpPacket),
      (t = .GetRequest ∨ t = .GetNextRequest ∨ t = .GetBulkRequest) →
      resp (requests + 1) t oid = .ok packet →
      packet.Error = .NoError →
      packet.Variables = pre ++ pduT :: rest →
      isWalkStopType pduT.Typ = true →
      (∀ pdu ∈ pre, isWalkStopType pdu.Typ = false ∧
        hasPre pdu.Name (root ++ ".") = true ∧ ¬(ci = true ∧ pdu.Name = oid)) →
      walkLoop resp (fun s pdu => .ok (s ++ [pdu])) ci root (fuel + 1) t oid requests s =
        .ok (s ++ pre)) := by
  refine ⟨?_, ?_, ?_⟩
  · intro σ walkFn fuel t oid requests s packet ht h hv
    rcases ht with rfl | rfl | rfl <;>
      simp [walkLoop_succ, walkRound, h, hv]
  · intro σ walkFn fuel t oid requests s packet ht h he
    rcases ht with rfl | rfl | rfl <;>
      by_cases hv : packet.Variables.length = 0 <;>
        simp [walkLoop_succ, walkRound, h, hv, he]
  · intro fuel t oid requests s pre rest pduT packet ht h he hv htT hpre
    have hproc := processVars_stop ci root oid (requests + 1) pduT rest htT pre 0 s hpre
    rcases ht with rfl | rfl | rfl <;>
      simp [walkLoop_succ, walkRound, isWalkStopError, h, he, hv, hproc]

theorem walk_cleanTermination_witness :
    walkLoop respC9w (fun (s : List SnmpPDU) pdu => .ok (s ++ [pdu])) true ".1.3" 1
      .GetNextRequest ".1.3.7" 2 [] = .ok [] ∧
    walkLoop respC9w (fun (s : List SnmpPDU) pdu => .ok (s ++ [pdu])) true ".1.3" 1
      .GetNextRequest ".1.3.5" 1 [] = .ok [] ∧
    walkLoop respC9ce (fun (s : List SnmpPDU) pdu => .ok (s ++ [pdu])) true ".1.3" 1
      .GetNextRequest ".1.3" 1 [] = .ok [⟨".1.3.5", .Integer⟩] := by
  refine ⟨?_, ?_, ?_⟩
  · exact (walk_cleanTermination respC9w true ".1.3").1 (List SnmpPDU) _ 0
      .GetNextRequest ".1.3.7" 2 [] (mkResponse .NoError [])
      (Or.inr (Or.inl rfl)) rfl rfl
  · exact (walk_cleanTermination respC9w true ".1.3").2.1 (List SnmpPDU) _ 0
      .GetNextRequest ".1.3.5" 1 [] (mkResponse .GenErr [⟨".1.3.7", .Integer⟩])
      (Or.inr (Or.inl rfl)) rfl (by decide)
  · exact (walk_cleanTermination respC9ce true ".1.3").2.2 0
      .GetNextRequest ".1.3" 1 [] [⟨".1.3.5", .Integer⟩] []
      ⟨".1.3.9", .EndOfMibView⟩
      (mkResponse .NoError [⟨".1.3.5", .Integer⟩, ⟨".1.3.9", .EndOfMibView⟩])
      (Or.inr (Or.inl rfl)) rfl rfl rfl (by decide) (by decide)

theorem walk_cleanTermination_counterexample :
    respC9ce 2 .GetNextRequest ".1.3.5" =
      .ok (mkResponse .NoError [⟨".1.3.5", .Integer⟩, ⟨".1.3.9", .EndOfMibView⟩]) ∧
    walkAll respC9ce [] 3 .GetNextRequest ".1.3" =
      .err ("OID not increasing: " ++ ".1.3.5") [⟨".1.3.5", .Integer⟩] := by
  refine ⟨rfl, by decide⟩

theorem hashPasswordLoop_eq (p : List Nat) :
    ∀ (m pi : Nat), hashPasswordLoop p m pi =
      (List.range (64 * m)).map (fun k => p.getD ((pi + k) % p.length) 0) := by
  intro m
  induction m with
  | zero => intro pi; simp [hashPasswordLoop]
  | succ m ih =>
    intro pi
    have hsplit : 64 * (m + 1) = 64 + 64 * m := by ring
    have hfun : (fun k => p.getD ((pi + 64 + k) % p.length) 0) =
        ((fun k => p.getD ((pi + k) % p.length) 0) ∘ fun x => 64 + x) := by
      funext x
      simp [Function.comp, Nat.add_assoc]
    rw [hashPasswordLoop, ih (pi + 64), hsplit, List.range_add, List.map_append,
      List.map_map, hfun]
    rfl

/-- C2: for a non-empty passphrase, hashPassword hashes exactly the
1048576-byte cyclic repetition of the passphrase (and rejects an empty
passphrase), and genlocalkey produces H(Ku, engineID, Ku) where Ku is the
hashPassword result. -/
theorem hashPassword_genlocalkey_spec (dg : CryptoHash → List Nat → List Nat)
    (h : CryptoHash) (a : SnmpV3AuthProtocol) (p eid : List Nat) (hp : p ≠ []) :
    hashPassword dg h p = .ok (dg h (cyclicExpansion p)) ∧
    (cyclicExpansion p).length = 1048576 ∧
    (∀ k, k < 1048576 → (cyclicExpansion p).getD k 0 = p.getD (k % p.length) 0) ∧
    hashPassword dg h [] = .error "hashPassword: password is empty" ∧
    pwKu dg a.HashType p = dg a.HashType (cyclicExpansion p) ∧
    (genlocalkey dg a p eid disabledCache).1 =
      .ok (dg a.HashType (pwKu dg a.HashType p ++ eid ++ pwKu dg a.HashType p)) := by
  have hlen : p.length ≠ 0 := by simpa using hp
  have hstream : hashPasswordLoop p 16384 0 = cyclicExpansion p := by
    rw [hashPasswordLoop_eq p 16384 0]
    simp [cyclicExpansion]
  refine ⟨?_, ?_, ?_, ?_, ?_, ?_⟩
  · simp [hashPassword, hlen, hstream]
  · simp [cyclicExpansion]
  · intro k hk
    rw [cyclicExpansion, List.getD_eq_getElem?_getD]
    simp [List.getElem?_range, hk]
  · simp [hashPassword]
  · simp [pwKu, hstream]
  · simp [genlocalkey, hMAC, cachedPasswordToKey, cacheKey, disabledCache,
      hashPassword, hlen, pwKu, hstream]

theorem hashPassword_genlocalkey_spec_witness :
    hashPassword dgK .SHA1 [1, 2] = .ok (dgK .SHA1 (cyclicExpansion [1, 2])) ∧
    (genlocalkey dgK .SHA [1, 2] [3] disabledCache).1 =
      .ok (dgK .SHA1 (pwKu dgK .SHA1 [1, 2] ++ [3] ++ pwKu dgK .SHA1 [1, 2])) := by
  have hw := hashPassword_genlocalkey_spec dgK .SHA1 .SHA [1, 2] [3] (by decide)
  exact ⟨hw.1, hw.2.2.2.2.2⟩

/-- C3: the password cache is transparent, and disabling then re-enabling
caching leaves a fresh empty cache.  Transparency is stated against any
consistent cache state: every state reachable by the library only stores
correct password-to-key hashes, and the freshly enabled empty cache is
trivially consistent. -/
theorem passwordCache_transparent :
    (∀ (dg : CryptoHash → List Nat → List Nat) (a : SnmpV3AuthProtocol)
      (p eid : List Nat) (st : PwCache), ConsistentCache dg st →
      (genlocalkey dg a p eid st).1 = (genlocalkey dg a p eid disabledCache).1) ∧
    (∀ st : PwCache, PasswordCaching true (PasswordCaching false st) = emptyCache) := by
  constructor
  · intro dg a p eid st hcons
    by_cases hd : st.passwordCacheDisable
    · simp [genlocalkey, hMAC, cachedPasswordToKey, cacheKey, disabledCache, hd]
      cases hpw : hashPassword dg a.HashType p <;> simp
    · cases hlook : cacheLookup st.passwordKeyHashCache (cacheKeyBytes a p) with
      | none =>
        simp [genlocalkey, hMAC, cachedPasswordToKey, cacheKey, disabledCache, hd, hlook]
        cases hpw : hashPassword dg a.HashType p <;> simp
      | some v =>
        have hcv := hcons a p v hlook
        have hlen : p.length ≠ 0 := by simpa using hcv.1
        simp [genlocalkey, hMAC, cachedPasswordToKey, cacheKey, disabledCache, hd, hlook,
          hashPassword, hlen, hcv.2, pwKu]
  · intro st
    simp [PasswordCaching, emptyCache]

theorem passwordCache_transparent_witness :
    (genlocalkey dgK .SHA [1, 2] [3] emptyCache).1 =
      (genlocalkey dgK .SHA [1, 2] [3] disabledCache).1 ∧
    PasswordCaching true (PasswordCaching false emptyCache) = emptyCache := by
  constructor
  · exact passwordCache_transparent.1 dgK .SHA [1, 2] [3] emptyCache
      (by intro a p v hv; simp [emptyCache, cacheLookup] at hv)
  · exact passwordCache_transparent.2 emptyCache

/-- C6: when the cached password-to-key step fails (the only failure source
is an empty passphrase), hMAC swallows the error and returns an empty key
with a nil error, so key derivation silently proceeds with an empty key. -/
theorem hMAC_swallowsError (dg : CryptoHash → List Nat → List Nat)
    (h : CryptoHash) (ck eid : List Nat) (st : PwCache)
    (hmiss : cacheLookup st.passwordKeyHashCache ck = none) :
    (cachedPasswordToKey dg h ck [] st).1 = .error "hashPassword: password is empty" ∧
    hMAC dg h ck [] eid st = (.ok [], st) := by
  by_cases hd : st.passwordCacheDisable <;>
    simp [cachedPasswordToKey, hMAC, hashPassword, hd, hmiss]

theorem hMAC_swallowsError_witness :
    (cachedPasswordToKey dgK .MD5 [] [] disabledCache).1 =
      .error "hashPassword: password is empty" ∧
    hMAC dgK .MD5 [] [] [9] disabledCache = (.ok [], disabledCache) :=
  hMAC_swallowsError dgK .MD5 [] [9] disabledCache rfl

/-- C4: genlocalPrivKey selects the Reeder extension (KuL followed by a full
second localization that uses KuL as the passphrase) for AES, AES192C and
AES256C, the Blumenthal extension (KuL followed by H(KuL)) for AES192 and
AES256, truncates the extended key to the cipher key length 16, 24 or 32,
and fails when the extended key is shorter than that length. -/
theorem genlocalPrivKey_selection (dg : CryptoHash → List Nat → List Nat)
    (auth : SnmpV3AuthProtocol) (p eid : List Nat) (hp : p ≠ [])
    (hKuL : pwKuL dg auth.HashType p eid ≠ []) :
    (genlocalPrivKey dg .AES auth p eid disabledCache).1 =
      (if (pwKuL dg auth.HashType p eid ++
            pwKuL dg auth.HashType (pwKuL dg auth.HashType p eid) eid).length < 16 then
        .error "genlocalPrivKey: extended key shorter than cipher key length"
      else .ok ((pwKuL dg auth.HashType p eid ++
            pwKuL dg auth.HashType (pwKuL dg auth.HashType p eid) eid).take 16)) ∧
    (genlocalPrivKey dg .AES192C auth p eid disabledCache).1 =
      (if (pwKuL dg auth.HashType p eid ++
            pwKuL dg auth.HashType (pwKuL dg auth.HashType p eid) eid).length < 24 then
        .error "genlocalPrivKey: extended key shorter than cipher key length"
      else .ok ((pwKuL dg auth.HashType p eid ++
            pwKuL dg auth.HashType (pwKuL dg auth.HashType p eid) eid).take 24)) ∧
    (genlocalPrivKey dg .AES256C auth p eid disabledCache).1 =
      (if (pwKuL dg auth.HashType p eid ++
            pwKuL dg auth.HashType (pwKuL dg auth.HashType p eid) eid).length < 32 then
        .error "genlocalPrivKey: extended key shorter than cipher key length"
      else .ok ((pwKuL dg auth.HashType p eid ++
            pwKuL dg auth.HashType (pwKuL dg auth.HashType p eid) eid).take 32)) ∧
    (genlocalPrivKey dg .AES192 auth p eid disabledCache).1 =
      (if (pwKuL dg auth.HashType p eid ++
            dg auth.HashType (pwKuL dg auth.HashType p eid)).length < 24 then
        .error "genlocalPrivKey: extended key shorter than cipher key length"
      else .ok ((pwKuL dg auth.HashType p eid ++
            dg auth.HashType (pwKuL dg auth.HashType p eid)).take 24)) ∧
    (genlocalPrivKey dg .AES256 auth p eid disabledCache).1 =
      (if (pwKuL dg auth.HashType p eid ++
            dg auth.HashType (pwKuL dg auth.HashType p eid)).length < 32 then
        .error "genlocalPrivKey: extended key shorter than cipher key length"
      else .ok ((pwKuL dg auth.HashType p eid ++
            dg auth.HashType (pwKuL dg auth.HashType p eid)).take 32)) := by
  have hlen : p.length ≠ 0 := by simpa using hp
  have hKlen : (pwKuL dg auth.HashType p eid).length ≠ 0 := by simpa using hKuL
  have hreeder : extendKeyReeder dg auth p eid disabledCache =
      (.ok (pwKuL dg auth.HashType p eid ++
        pwKuL dg auth.HashType (pwKuL dg auth.HashType p eid) eid), disabledCache) := by
    have hKlen2 := hKlen
    simp only [pwKuL, pwKu, List.append_assoc] at hKlen2
    simp [extendKeyReeder, hMAC, cachedPasswordToKey, cacheKey, disabledCache,
      hashPassword, hlen, hKlen2, pwKuL, pwKu]
  have hblum : extendKeyBlumenthal dg auth p eid disabledCache =
      (.ok (pwKuL dg auth.HashType p eid ++
        dg auth.HashType (pwKuL dg auth.HashType p eid)), disabledCache) := by
    simp [extendKeyBlumenthal, hMAC, cachedPasswordToKey, cacheKey, disabledCache,
      hashPassword, hlen, pwKuL, pwKu]
  refine ⟨?_, ?_, ?_, ?_, ?_⟩
  · delta genlocalPrivKey
    simp [hreeder]
    split <;> rfl
  · delta genlocalPrivKey
    simp [hreeder]
    split <;> rfl
  · delta genlocalPrivKey
    simp [hreeder]
    split <;> rfl
  · delta genlocalPrivKey
    simp [hblum]
    split <;> rfl
  · delta genlocalPrivKey
    simp [hblum]
    split <;> rfl

theorem genlocalPrivKey_selection_witness :
    (genlocalPrivKey dgK .AES .SHA [1] [2] disabledCache).1 =
      .ok (List.replicate 16 7) ∧
    (genlocalPrivKey dgK .AES192 .SHA [1] [2] disabledCache).1 =
      .ok (List.replicate 24 7) := by
  have hw := genlocalPrivKey_selection dgK .SHA [1] [2] (by decide)
    (by simp [pwKuL, dgK])
  constructor
  · rw [hw.1]
    simp [pwKuL, pwKu, dgK]
  · rw [hw.2.2.2.1]
    simp [pwKuL, pwKu, dgK]

theorem usmSalt_spec_counterexample :
    (usmAllocateNewSalt spAESmax).1 = .aes 0 ∧
    ¬ ((0 : Nat) > 2 ^ 64 - 1) ∧
    Nat.land 2 AuthPriv ≠ AuthPriv ∧
    (InitPacket spAES (mkV3Packet 2 spAES)).toOption.map
      (fun r => r.2.SecurityParameters.PrivacyParameters) = some (putUint64BE 6) := by
  refine ⟨by decide, by decide, by decide, rfl⟩

/-- C5 (amended): usmAllocateNewSalt returns the previous counter plus one
reduced modulo the word width (64 bits for the AES family, 32 bits for DES),
which is strictly greater than the previous value whenever the counter does
not wrap, and InitPacket allocates a new salt from the session for every
outgoing packet, installing it as PrivacyParameters (AES: 8-byte big-endian
counter; DES: 4-byte big-endian engineBoots followed by the 4-byte
big-endian counter) exactly when the privacy bit of MsgFlags is set, that
is MsgFlags&AuthPriv > AuthNoPriv (the original claim asserted unconditional
strict growth, which fails at the wrap, and installation only when the flags
include all of AuthPriv, while flags value 2 also installs). -/
theorem usmSalt_spec :
    (∀ sp : UsmSecurityParameters,
      (sp.PrivacyProtocol = .AES ∨ sp.PrivacyProtocol = .AES192 ∨
       sp.PrivacyProtocol = .AES256 ∨ sp.PrivacyProtocol = .AES192C ∨
       sp.PrivacyProtocol = .AES256C) →
      (usmAllocateNewSalt sp).1 = .aes ((sp.localAESSalt + 1) % 2 ^ 64) ∧
      (usmAllocateNewSalt sp).2.localAESSalt = (sp.localAESSalt + 1) % 2 ^ 64 ∧
      (sp.localAESSalt + 1 < 2 ^ 64 → (sp.localAESSalt + 1) % 2 ^ 64 > sp.localAESSalt)) ∧
    (∀ sp : UsmSecurityParameters,
      (sp.PrivacyProtocol = .DES ∨ sp.PrivacyProtocol = .NoPriv) →
      (usmAllocateNewSalt sp).1 = .des ((sp.localDESSalt + 1) % 2 ^ 32) ∧
      (usmAllocateNewSalt sp).2.localDESSalt = (sp.localDESSalt + 1) % 2 ^ 32 ∧
      (sp.localDESSalt + 1 < 2 ^ 32 → (sp.localDESSalt + 1) % 2 ^ 32 > sp.localDESSalt)) ∧
    (∀ (sp : UsmSecurityParameters) (packet : SnmpPacket),
      (Nat.land packet.MsgFlags AuthPriv ≤ AuthNoPriv →
        InitPacket sp packet = .ok ((usmAllocateNewSalt sp).2, packet)) ∧
      (Nat.land packet.MsgFlags AuthPriv > AuthNoPriv →
        sp.PrivacyProtocol = .AES →
        packet.SecurityParameters.PrivacyProtocol = .AES →
        InitPacket sp packet = .ok ((usmAllocateNewSalt sp).2,
          { packet with SecurityParameters :=
            { packet.SecurityParameters with
              PrivacyParameters := putUint64BE ((sp.localAESSalt + 1) % 2 ^ 64) } })) ∧
      (Nat.land packet.MsgFlags AuthPriv > AuthNoPriv →
        sp.PrivacyProtocol = .DES →
        packet.SecurityParameters.PrivacyProtocol = .DES →
        InitPacket sp packet = .ok ((usmAllocateNewSalt sp).2,
          { packet with SecurityParameters :=
            { packet.SecurityParameters with
              PrivacyParameters :=
                putUint32BE packet.SecurityParameters.AuthoritativeEngineBoots ++
                  putUint32BE ((sp.localDESSalt + 1) % 2 ^ 32) } }))) := by
  refine ⟨?_, ?_, ?_⟩
  · intro sp hproto
    rcases hproto with h | h | h | h | h <;>
      refine ⟨by simp [usmAllocateNewSalt, h], by simp [usmAllocateNewSalt, h], ?_⟩ <;>
        intro hlt <;> omega
  · intro sp hproto
    rcases hproto with h | h <;>
      refine ⟨by simp [usmAllocateNewSalt, h], by simp [usmAllocateNewSalt, h], ?_⟩ <;>
        intro hlt <;> omega
  · intro sp packet
    refine ⟨?_, ?_, ?_⟩
    · intro hle
      have hnot : ¬ Nat.land packet.MsgFlags AuthPriv > AuthNoPriv := by omega
      simp [InitPacket, hnot]
    · intro hgt hsp hpk
      simp [InitPacket, hgt, usmAllocateNewSalt, usmSetSalt, hsp, hpk]
    · intro hgt hsp hpk
      simp [InitPacket, hgt, usmAllocateNewSalt, usmSetSalt, hsp, hpk]

theorem usmSalt_spec_witness :
    (usmAllocateNewSalt spAES).1 = .aes 6 ∧
    (usmAllocateNewSalt spDES).1 = .des 4 ∧
    InitPacket spAES (mkV3Packet 3 spAES) = .ok ((usmAllocateNewSalt spAES).2,
      { mkV3Packet 3 spAES with SecurityParameters :=
        { spAES with PrivacyParameters := putUint64BE 6 } }) ∧
    InitPacket spAES (mkV3Packet 1 spAES) = .ok ((usmAllocateNewSalt spAES).2, mkV3Packet 1 spAES) := by
  refine ⟨?_, ?_, ?_, ?_⟩
  · exact ((usmSalt_spec.1 spAES (Or.inl rfl)).1).trans (by decide)
  · exact ((usmSalt_spec.2.1 spDES (Or.inl rfl)).1).trans (by decide)
  · exact ((usmSalt_spec.2.2 spAES (mkV3Packet 3 spAES)).2.1 (by decide) rfl rfl).trans (by rfl)
  · exact (usmSalt_spec.2.2 spAES (mkV3Packet 1 spAES)).1 (by decide)

/-- C7: with the DES privacy protocol, decryptPacket fails with the error
"error decrypting ScopedPDU: not multiple of des block size" whenever the
ciphertext length (the packet bytes past the octet-string header) is not a
multiple of 8, producing no modified buffer, and proceeds to decrypt exactly
when the length is a multiple of the DES block size. -/
theorem decryptPacket_desBlockSize
    (aesDec desDec : List Nat → List Nat → List Nat → List Nat)
    (sp : UsmSecurityParameters) (packet : List Nat) (cursor len c : Nat)
    (hproto : sp.PrivacyProtocol = .DES)
    (hparse : parseLength (packet.drop cursor) = .ok (len, c))
    (hle : c + cursor ≤ packet.length) :
    ((packet.length - (c + cursor)) % 8 ≠ 0 →
      decryptPacket aesDec desDec sp packet cursor =
        .error "error decrypting ScopedPDU: not multiple of des block size") ∧
    ((packet.length - (c + cursor)) % 8 = 0 →
      decryptPacket aesDec desDec sp packet cursor =
        .ok (packet.take cursor ++ desDec (sp.PrivacyKey.take 8)
          ((List.range 8).map (fun i =>
            Nat.xor ((sp.PrivacyKey.drop 8).getD i 0) (sp.PrivacyParameters.getD i 0)))
          (packet.drop (c + cursor)))) := by
  have hnot : ¬ c + cursor > packet.length := by omega
  constructor
  · intro hmod
    simp [decryptPacket, hparse, hnot, hproto, hmod]
  · intro hmod
    simp [decryptPacket, hparse, hnot, hproto, hmod]

theorem decryptPacket_desBlockSize_witness :
    decryptPacket cipherK cipherK spDES16 pktDES9 0 =
      .error "error decrypting ScopedPDU: not multiple of des block size" ∧
    decryptPacket cipherK cipherK spDES16 pktDES8 0 = .ok [7] := by
  constructor
  · exact (decryptPacket_desBlockSize cipherK cipherK spDES16 pktDES9 0 9 2
      rfl rfl (by decide)).1 (by decide)
  · exact ((decryptPacket_desBlockSize cipherK cipherK spDES16 pktDES8 0 8 2
      rfl rfl (by decide)).2 (by decide)).trans (by rfl)

theorem ConstantTimeCompare_eq_one (x y : List Nat) :
    ConstantTimeCompare x y = 1 ↔ x = y := by
  unfold ConstantTimeCompare
  by_cases hlen : x.length ≠ y.length
  · simp [hlen]
    intro hEq
    exact absurd (hEq ▸ rfl) hlen
  · by_cases hEq : x = y <;> simp [hlen, hEq]

/-- C10: isAuthentic returns false with a nil error, for every digest map,
whenever the user name in the security parameters of the inbound packet
differs from the session user name; when the user names match, it returns
true exactly when the digest recomputed over the packet bytes equals the
received AuthenticationParameters. -/
theorem isAuthentic_spec (dg : CryptoHash → List Nat → List Nat)
    (sp : UsmSecurityParameters) (packetBytes : List Nat) (packet : SnmpPacket) :
    (packet.SecurityParameters.UserName ≠ sp.UserName →
      isAuthentic dg sp packetBytes packet = .ok false) ∧
    (packet.SecurityParameters.UserName = sp.UserName →
      (isAuthentic dg sp packetBytes packet = .ok true ↔
        calcPacketDigestVal dg packetBytes packet.SecurityParameters =
          packet.SecurityParameters.AuthenticationParameters)) := by
  constructor
  · intro hne
    simp [isAuthentic, hne]
  · intro hEq
    simp [isAuthentic, hEq, calcPacketDigest, ConstantTimeCompare_eq_one]

theorem isAuthentic_spec_witness :
    isAuthentic dgK spBob [0] (mkV3Packet 0 usmAlice) = .ok false ∧
    isAuthentic dgK spAlice [0] (mkV3Packet 0 usmAlice) = .ok true := by
  constructor
  · exact (isAuthentic_spec dgK spBob [0] (mkV3Packet 0 usmAlice)).1 (by decide)
  · exact ((isAuthentic_spec dgK spAlice [0] (mkV3Packet 0 usmAlice)).2 rfl).mpr (by decide)
